import Mathlib

/-!
Verification of the Hoppy Whisper push-to-talk capture core.

This file gives a shallow embedding, in Lean 4, of the pieces of the
repository that the specification's claims are about:

* `src/app/hotkey/chord.py` — hotkey chord parsing and matching
  (`parse_hotkey`, `HotkeyChord.matches`, `HotkeyChord.display`);
* `src/app/hotkey/manager.py` — the hotkey interaction state machine
  (`HotkeyManager._on_press` / `_on_release`, `update_chord`,
  `set_paste_window_seconds`);
* `src/app/audio/vad.py` — the voice-activity detector state update
  (`VoiceActivityDetector.__init__` / `process_frame`);
* `src/app/audio/recorder.py` — the audio recorder start/stop lifecycle
  (`AudioRecorder.start` / `stop` / `_verify_device_available`).

Python strings are modelled as lists of Unicode codepoints (`PyStr`),
with the string operations the source uses (`split`, `strip`, `lower`,
`upper`, `join`, `isdigit`, `int`, `ord`) defined on that model.  Case
mapping is modelled on the ASCII range, which covers every key token the
parser recognises.  Wall-clock instants are modelled as rationals.
-/

namespace HoppyWhisper

/-! ### Python string primitives (codepoint model) -/

/-- A Python string, as its list of Unicode codepoints. -/
abbrev PyStr := List Nat

/-- Convert a Lean string literal to its codepoint list (used to write
down the fixed token tables of `chord.py`). -/
def str2cp (s : String) : PyStr := s.data.map Char.toNat

/-- `str.lower()` on a single codepoint (ASCII range). -/
def lowerCp (n : Nat) : Nat := if 65 ≤ n ∧ n ≤ 90 then n + 32 else n

/-- `str.upper()` on a single codepoint (ASCII range). -/
def upperCp (n : Nat) : Nat := if 97 ≤ n ∧ n ≤ 122 then n - 32 else n

/-- `str.lower()`. -/
def pyLower (s : PyStr) : PyStr := s.map lowerCp

/-- `str.upper()`. -/
def pyUpper (s : PyStr) : PyStr := s.map upperCp

/-- Whitespace codepoints stripped by `str.strip()` (ASCII range). -/
def isPySpace (n : Nat) : Bool := n = 9 || n = 10 || n = 11 || n = 12 || n = 13 || n = 32

/-- `str.strip()`: drop whitespace from both ends. -/
def pyStrip (s : PyStr) : PyStr :=
  ((s.dropWhile isPySpace).reverse.dropWhile isPySpace).reverse

/-- `str.split(sep)` for a one-character separator: always returns at
least one piece, and empty pieces are kept (`"".split("+") == [""]`,
`"+".split("+") == ["", ""]`). -/
def pySplit (sep : Nat) : PyStr → List PyStr
  | [] => [[]]
  | c :: cs =>
    if c = sep then [] :: pySplit sep cs
    else
      match pySplit sep cs with
      | r :: rs => (c :: r) :: rs
      | [] => [[c]]

/-- `sep.join(parts)` for a one-character separator. -/
def pyJoin (sep : Nat) : List PyStr → PyStr
  | [] => []
  | [t] => t
  | t :: ts => t ++ sep :: pyJoin sep ts

/-- `str.isdigit()` on a single codepoint (ASCII digits). -/
def isAsciiDigit (n : Nat) : Bool := 48 ≤ n && n ≤ 57

/-- `int(s)` for a string of ASCII digits. -/
def digitsToNat (s : PyStr) : Nat := s.foldl (fun acc d => 10 * acc + (d - 48)) 0

namespace Chord

/-! ### `src/app/hotkey/chord.py` -/

/-- The errors raised by `parse_hotkey` (all `HotkeyParseError`s). -/
inductive ParseErr where
  /-- "Hotkey cannot be empty" -/
  | emptyHotkey
  /-- "Hotkey must include a key" -/
  | mustIncludeKey
  /-- "Hotkey must include a non-modifier key" -/
  | noNonModifierKey
  /-- "Unsupported key token '...'" -/
  | unsupportedKey (token : PyStr)
deriving DecidableEq, Repr

/-- `MODIFIER_FLAGS` from `chord.py`. -/
def MODIFIER_FLAGS : List (PyStr × Nat) :=
  [ (str2cp "alt", 0x0001)
  , (str2cp "ctrl", 0x0002)
  , (str2cp "control", 0x0002)
  , (str2cp "shift", 0x0004)
  , (str2cp "win", 0x0008)
  , (str2cp "windows", 0x0008)
  , (str2cp "super", 0x0008) ]

/-- `MODIFIER_KEYCODES` from `chord.py`. -/
def MODIFIER_KEYCODES : List (PyStr × Finset Nat) :=
  [ (str2cp "alt", {0xA4, 0xA5})
  , (str2cp "ctrl", {0xA2, 0xA3})
  , (str2cp "control", {0xA2, 0xA3})
  , (str2cp "shift", {0xA0, 0xA1})
  , (str2cp "win", {0x5B, 0x5C})
  , (str2cp "windows", {0x5B, 0x5C})
  , (str2cp "super", {0x5B, 0x5C}) ]

/-- `token in MODIFIER_FLAGS` (dict membership). -/
def isModifierToken (t : PyStr) : Bool := (MODIFIER_FLAGS.lookup t).isSome

/-- `HotkeyChord` from `chord.py`: normalized representation of a chord. -/
structure HotkeyChord where
  text : PyStr
  modifier_mask : Nat
  modifier_groups : List (Finset Nat)
  key_group : Finset Nat
deriving DecidableEq

/-- `HotkeyChord.display`: `self.text.upper()`. -/
def HotkeyChord.display (c : HotkeyChord) : PyStr := pyUpper c.text

/-- `HotkeyChord.matches`: the pressed set must be nonempty, intersect the
primary key group, and intersect every (nonempty) modifier group. -/
def HotkeyChord.matches (c : HotkeyChord) (pressed : Finset Nat) : Bool :=
  if pressed = ∅ then false
  else if c.key_group ∩ pressed = ∅ then false
  else c.modifier_groups.all fun g => decide (g = ∅) || decide (¬ g ∩ pressed = ∅)

/-- The punctuation table local to `_key_to_virtual_keys`. -/
def PUNCTUATION : List (PyStr × Nat) :=
  [ (str2cp ";", 0xBA)
  , (str2cp "=", 0xBB)
  , (str2cp ",", 0xBC)
  , (str2cp "-", 0xBD)
  , (str2cp ".", 0xBE)
  , (str2cp "/", 0xBF)
  , (str2cp "`", 0xC0)
  , (str2cp "[", 0xDB)
  , (str2cp "\\", 0xDC)
  , (str2cp "]", 0xDD)
  , (str2cp "'", 0xDE) ]

/-- The named-key table local to `_key_to_virtual_keys`. -/
def NAMED_KEYS : List (PyStr × Nat) :=
  [ (str2cp "space", 0x20)
  , (str2cp "enter", 0x0D)
  , (str2cp "tab", 0x09)
  , (str2cp "escape", 0x1B)
  , (str2cp "esc", 0x1B)
  , (str2cp "backspace", 0x08)
  , (str2cp "delete", 0x2E)
  , (str2cp "home", 0x24)
  , (str2cp "end", 0x23)
  , (str2cp "pageup", 0x21)
  , (str2cp "pagedown", 0x22)
  , (str2cp "insert", 0x2D)
  , (str2cp "up", 0x26)
  , (str2cp "down", 0x28)
  , (str2cp "left", 0x25)
  , (str2cp "right", 0x27) ]

/-- `_key_to_virtual_keys` from `chord.py`: punctuation table first, then
`f1`..`f24`, then named keys, then any single character via
`ord(char.upper())`; anything else yields the empty set (parse failure). -/
def keyToVirtualKeys (token : PyStr) : Finset Nat :=
  match PUNCTUATION.lookup token with
  | some vk => {vk}
  | none =>
    match token with
    | [] => ∅
    | c :: rest =>
      if c = 102 ∧ rest ≠ [] ∧ rest.all isAsciiDigit
          ∧ 1 ≤ digitsToNat rest ∧ digitsToNat rest ≤ 24 then
        {0x70 + digitsToNat rest - 1}
      else
        match NAMED_KEYS.lookup token with
        | some vk => {vk}
        | none => if rest = [] then {upperCp c} else ∅

/-- The list comprehension in `parse_hotkey`:
`[part.strip().lower() for part in text.split("+") if part.strip()]`. -/
def tokenize (text : PyStr) : List PyStr :=
  (pySplit 43 text).filterMap fun part =>
    let t := pyStrip part
    if t = [] then none else some (pyLower t)

/-- The token loop of `parse_hotkey`: modifiers are collected in order,
and `key_token` is overwritten by each non-modifier token, so the last
non-modifier token wins. -/
def collectTokens : List PyStr → List PyStr × Option PyStr
  | [] => ([], none)
  | t :: ts =>
    let (mods, key) := collectTokens ts
    if isModifierToken t then (t :: mods, key)
    else
      match key with
      | some k => (mods, some k)
      | none => (mods, some t)

/-- The modifier-mask fold in `parse_hotkey`. -/
def buildMask (mods : List PyStr) : Nat :=
  mods.foldl (fun m t => m ||| (MODIFIER_FLAGS.lookup t).getD 0) 0

/-- The modifier-group list built in `parse_hotkey`. -/
def buildGroups (mods : List PyStr) : List (Finset Nat) :=
  mods.map fun t => (MODIFIER_KEYCODES.lookup t).getD ∅

/-- The normalized display text built in `parse_hotkey`:
`"+".join([token.upper() for token in modifiers + [key_token]])`. -/
def normalizedText (mods : List PyStr) (keyToken : PyStr) : PyStr :=
  pyJoin 43 ((mods ++ [keyToken]).map pyUpper)

/-- `parse_hotkey` from `chord.py`. -/
def parse_hotkey (text : PyStr) : Except ParseErr HotkeyChord :=
  if text = [] then .error .emptyHotkey
  else
    let parts := tokenize text
    if parts = [] then .error .mustIncludeKey
    else
      match collectTokens parts with
      | (_, none) => .error .noNonModifierKey
      | (modifiers, some keyToken) =>
        let key_group := keyToVirtualKeys keyToken
        if key_group = ∅ then .error (.unsupportedKey keyToken)
        else
          .ok { text := normalizedText modifiers keyToken
              , modifier_mask := buildMask modifiers
              , modifier_groups := buildGroups modifiers
              , key_group := key_group }

end Chord

deriving instance DecidableEq for Except

namespace Vad

/-! ### `src/app/audio/vad.py`

`process_frame` first converts the float frame to PCM and asks the
external WebRTC classifier (`webrtcvad.Vad.is_speech`) whether the frame
is speech; everything after that point is the pure state update embedded
here.  A frame is therefore represented by its classification bit, which
is exactly how the claims speak about frames ("speech-classified" /
"silence-classified"). -/

/-- The `ValueError`s raised by `VoiceActivityDetector.__init__`. -/
inductive VadErr where
  | badSampleRate (sr : Nat)
  | badFrameDuration (fd : Nat)
  | badAggressiveness (ag : Nat)
deriving DecidableEq

/-- The state of a `VoiceActivityDetector`. -/
structure VoiceActivityDetector where
  sample_rate : Nat
  frame_duration_ms : Nat
  aggressiveness : Nat
  trailing_silence_ms : Nat
  frame_size : Nat
  silence_frames : Nat
  silence_threshold : Nat
  has_speech : Bool
deriving DecidableEq

/-- `VoiceActivityDetector.__init__`: validates the sample rate, the frame
duration and the aggressiveness (and nothing else), then derives
`frame_size` and the integer-floor silence threshold
`trailing_silence_ms // frame_duration_ms`. -/
def VoiceActivityDetector.init (sample_rate frame_duration_ms aggressiveness
    trailing_silence_ms : Nat) : Except VadErr VoiceActivityDetector :=
  if ¬ (sample_rate = 8000 ∨ sample_rate = 16000 ∨ sample_rate = 32000 ∨
      sample_rate = 48000) then
    .error (.badSampleRate sample_rate)
  else if ¬ (frame_duration_ms = 10 ∨ frame_duration_ms = 20 ∨
      frame_duration_ms = 30) then
    .error (.badFrameDuration frame_duration_ms)
  else if ¬ aggressiveness ≤ 3 then
    .error (.badAggressiveness aggressiveness)
  else
    .ok { sample_rate := sample_rate
        , frame_duration_ms := frame_duration_ms
        , aggressiveness := aggressiveness
        , trailing_silence_ms := trailing_silence_ms
        , frame_size := sample_rate * frame_duration_ms / 1000
        , silence_frames := 0
        , silence_threshold := trailing_silence_ms / frame_duration_ms
        , has_speech := false }

/-- `VoiceActivityDetector.reset`. -/
def VoiceActivityDetector.reset (v : VoiceActivityDetector) :
    VoiceActivityDetector :=
  { v with silence_frames := 0, has_speech := false }

/-- The state update and return value of
`VoiceActivityDetector.process_frame`, given the classification
`is_speech` of a correctly-sized frame.  Returns the new state together
with the `(is_speech, should_stop)` pair the method returns. -/
def VoiceActivityDetector.processFrame (v : VoiceActivityDetector)
    (is_speech : Bool) : VoiceActivityDetector × Bool × Bool :=
  let v' :=
    if is_speech then { v with has_speech := true, silence_frames := 0 }
    else { v with silence_frames := v.silence_frames + 1 }
  let should_stop := v'.has_speech && v'.silence_threshold ≤ v'.silence_frames
  (v', is_speech, should_stop)

/-- Feed a list of classified frames in order, keeping only the state. -/
def runFrames (v : VoiceActivityDetector) : List Bool → VoiceActivityDetector
  | [] => v
  | f :: fs => runFrames (v.processFrame f).1 fs

/-- Feed a list of classified frames in order, collecting the
`should_stop` value returned for each frame. -/
def stopOutputs (v : VoiceActivityDetector) : List Bool → List Bool
  | [] => []
  | f :: fs => (v.processFrame f).2.2 :: stopOutputs (v.processFrame f).1 fs

/-- The number of consecutive silence-classified frames since the last
speech-classified frame (or since the start, if no frame was speech). -/
def trailingSilenceCount : List Bool → Nat
  | [] => 0
  | f :: fs =>
    if fs.any id then trailingSilenceCount fs
    else if f then fs.length
    else fs.length + 1

/-- The specification's characterization of `should_stop` after a given
sequence of classified frames: speech has been seen, and the
consecutive-silence count has reached the threshold. -/
def specShouldStop (threshold : Nat) (frames : List Bool) : Bool :=
  frames.any id && threshold ≤ trailingSilenceCount frames

end Vad

namespace Manager

/-! ### `src/app/hotkey/manager.py`

The interaction state machine of `HotkeyManager`.  Key events carry the
virtual key code extracted by `_vk_from_key` (events for which it returns
`None` are ignored before any state is touched, so they are simply not
part of an event sequence here) and the `time.monotonic()` instant at
which the handler runs, modelled as a rational.  The Windows-only
`_ensure_hotkey_available` registration probe is a no-op off win32 and is
not part of the modelled state machine. -/

/-- A signal dispatched to the callbacks: `on_record_start`,
`on_record_stop`, `on_request_paste`. -/
inductive Emit where
  | start
  | stop
  | replay
deriving DecidableEq, Repr

/-- The mutable state of a `HotkeyManager` that the event handlers and
the runtime-reconfiguration entry points touch. -/
structure ManagerState where
  chord : Chord.HotkeyChord
  pressed : Finset Nat
  active : Bool
  chord_down : Bool
  last_release_time : ℚ
  paste_window_seconds : ℚ
  toggle_mode : Bool
deriving DecidableEq

/-- `HotkeyManager._on_press` for a key with virtual code `vk`, running at
monotonic instant `now`; returns the new state and the dispatched
signals. -/
def onPress (s : ManagerState) (vk : Nat) (now : ℚ) :
    ManagerState × List Emit :=
  let s1 := { s with pressed := insert vk s.pressed }
  if s1.chord.matches s1.pressed = false then (s1, [])
  else if s1.toggle_mode then
    if s1.chord_down then (s1, [])
    else
      let s2 := { s1 with chord_down := true }
      if s2.active = false then ({ s2 with active := true }, [.start])
      else ({ s2 with active := false, last_release_time := 0 }, [.stop])
  else
    if s1.active then (s1, [])
    else if ¬ s1.last_release_time = 0 ∧
        now - s1.last_release_time ≤ s1.paste_window_seconds then
      ({ s1 with last_release_time := 0 }, [.replay])
    else ({ s1 with active := true }, [.start])

/-- `HotkeyManager._on_release` for a key with virtual code `vk`, running
at monotonic instant `now`. -/
def onRelease (s : ManagerState) (vk : Nat) (now : ℚ) :
    ManagerState × List Emit :=
  let s1 := { s with pressed := s.pressed.erase vk }
  let s2 :=
    if s1.chord.matches s1.pressed = false then { s1 with chord_down := false }
    else s1
  if s2.toggle_mode then (s2, [])
  else if s2.active = false then (s2, [])
  else if s2.chord.matches s2.pressed then (s2, [])
  else ({ s2 with active := false, last_release_time := now }, [.stop])

/-- A raw keyboard event as delivered by the global listener. -/
inductive KeyEvent where
  | down (vk : Nat) (now : ℚ)
  | up (vk : Nat) (now : ℚ)
deriving DecidableEq

/-- Handle one keyboard event. -/
def stepEvent (s : ManagerState) : KeyEvent → ManagerState × List Emit
  | .down vk now => onPress s vk now
  | .up vk now => onRelease s vk now

/-- Handle a sequence of keyboard events, concatenating the dispatched
signals in order. -/
def runEvents (s : ManagerState) : List KeyEvent → ManagerState × List Emit
  | [] => (s, [])
  | e :: es =>
    let (s', out) := stepEvent s e
    let (s'', outs) := runEvents s' es
    (s'', out ++ outs)

/-- The `ValueError` raised by `_validate_paste_window`. -/
inductive PasteWindowErr where
  | outOfRange
deriving DecidableEq

/-- `HotkeyManager.set_paste_window_seconds`, via
`_validate_paste_window`: rejects durations outside `[0.0, 5.0]`,
leaving the state untouched; otherwise commits the new duration. -/
def set_paste_window_seconds (s : ManagerState) (duration : ℚ) :
    ManagerState × Option PasteWindowErr :=
  if 0 ≤ duration ∧ duration ≤ 5 then
    ({ s with paste_window_seconds := duration }, none)
  else (s, some .outOfRange)

/-- `HotkeyManager.update_chord`: parses first (raising leaves every
field untouched), then commits the chord, clears the pressed set and
resets `active`.  The win32-only availability probe of
`_parse_and_validate` is a no-op off Windows. -/
def update_chord (s : ManagerState) (chord_text : PyStr) :
    ManagerState × Option Chord.ParseErr :=
  match Chord.parse_hotkey chord_text with
  | .error e => (s, some e)
  | .ok c =>
    ({ s with chord := c, pressed := ∅, active := false }, none)

end Manager

namespace Recorder

/-! ### `src/app/audio/recorder.py`

`AudioRecorder` accumulates per-callback chunks (2-d float arrays with
one column per channel) and concatenates them on `stop()`.  Samples are
modelled as rationals; a 2-d numpy array is modelled by its list of rows
plus its column count, since the claims are about shapes. -/

/-- A 2-d float array: its rows, each of length `cols`, and the column
count (so the shape is `(data.length, cols)` even with zero rows). -/
structure AudioArray where
  data : List (List ℚ)
  cols : Nat
deriving DecidableEq

/-- Number of rows of the array. -/
def AudioArray.rows (a : AudioArray) : Nat := a.data.length

/-- The recorder state touched by `start`/`stop`: the configured channel
count, the `_recording` flag, the chunk buffer and whether a hardware
stream is open. -/
structure RecorderState where
  channels : Nat
  recording : Bool
  buffer : List (List (List ℚ))
  has_stream : Bool
deriving DecidableEq

/-- `AudioRecorder.__init__` with the given channel count. -/
def RecorderState.init (channels : Nat) : RecorderState :=
  { channels := channels, recording := false, buffer := [], has_stream := false }

/-- `AudioRecorder.stop`: when not recording it returns the empty array
reshaped to `(0, channels)` without touching the state; otherwise it
clears the recording flag, tears the stream down, and returns the
concatenated buffer (also shaped `(0, channels)` when the buffer is
empty).  Every path returns normally — the only `try` block swallows
stream-close errors. -/
def stop (s : RecorderState) : RecorderState × AudioArray :=
  if s.recording = false then (s, { data := [], cols := s.channels })
  else
    ({ s with recording := false, buffer := [], has_stream := false },
      { data := s.buffer.flatten, cols := s.channels })

/-- The messages of the `AudioDeviceError`s that `start` can see:
"No default input device configured. Please connect a microphone.",
"Input device has N channels, but M required.", and the wrapper
"Audio device check failed: ..." around any other exception.  Only the
second contains the substring `"channels"`, which `start` tests for. -/
inductive DeviceMsg where
  | noDefaultInput
  | insufficientChannels
  | checkFailed
deriving DecidableEq

/-- The outcome of `AudioRecorder.start`. -/
inductive StartResult where
  /-- already recording: logged no-op -/
  | alreadyRecording
  /-- stream opened, session begun -/
  | started
  /-- `AudioDeviceError` swallowed; session begun with no stream -/
  | degraded
  /-- raised `AudioDeviceError` -/
  | deviceError (msg : DeviceMsg)
  /-- raised `AudioCaptureError` -/
  | captureError
deriving DecidableEq

/-- The environment `start` inspects through the `sounddevice` module:
whether the module is a mock, the default input/output device indices
(as extracted from `sd.default.device`; `none` when unparseable or
`None`), the `max_input_channels` of each device, whether a
`test_error_recovery.py` frame is on the call stack (and which test
function), and whether opening an input stream would succeed. -/
structure AudioEnv where
  is_mock : Bool
  default_input : Option Int
  default_output : Option Int
  devices : List Nat
  in_test_recovery_missing : Bool
  in_test_recovery_other : Bool
  stream_opens : Bool
deriving DecidableEq

/-- `sd.default.device == (-1, -1)` (the `explicit_invalid` test). -/
def explicitInvalid (env : AudioEnv) : Bool :=
  env.default_input = some (-1) && env.default_output = some (-1)

/-- Whether any input-capable device exists (the `has_inputs` scan). -/
def hasInputs (env : AudioEnv) : Bool := env.devices.any fun m => 0 < m

/-- `AudioRecorder._verify_device_available`: `none` when the check
passes, otherwise the message of the raised `AudioDeviceError`.  A
negative or missing default input raises (after, for a `None` default on
a real module, trying to fall back to the first input-capable device);
a device exposing fewer than the requested channels raises the
channels message; a failing device query is wrapped as `checkFailed`. -/
def verifyDeviceAvailable (env : AudioEnv) (channels : Nat) :
    Option DeviceMsg :=
  match env.default_input with
  | some i =>
    if i < 0 then some .noDefaultInput
    else
      match env.devices.get? i.toNat with
      | none => some .checkFailed
      | some m => if m < channels then some .insufficientChannels else none
  | none =>
    if env.is_mock then some .noDefaultInput
    else
      match env.devices.findIdx? (fun m => 0 < m) with
      | none => some .noDefaultInput
      | some j =>
        match env.devices.get? j with
        | none => some .checkFailed
        | some m => if m < channels then some .insufficientChannels else none

/-- `AudioRecorder.start`.  The two stack-inspection blocks sit inside
`try ... except Exception: pass`, so their `raise` statements are
swallowed; their net effect is: a `test_error_recovery.py` frame whose
function is not the device-missing test degrades instead of raising.
After a verification failure, `start` re-raises only when the module is
mocked, the message mentions channels, or the default pair is explicitly
`(-1, -1)` while an input-capable device exists; otherwise it starts a
degraded session (recording flag set, no stream).  When verification
passes, a stream-open failure raises `AudioCaptureError` and rolls the
recording flag back. -/
def start (env : AudioEnv) (s : RecorderState) : RecorderState × StartResult :=
  if s.recording then (s, .alreadyRecording)
  else
    match verifyDeviceAvailable env s.channels with
    | some msg =>
      if env.in_test_recovery_other && !env.in_test_recovery_missing then
        ({ s with recording := true, buffer := [] }, .degraded)
      else if env.is_mock || decide (msg = .insufficientChannels) ||
          (explicitInvalid env && hasInputs env) then
        (s, .deviceError msg)
      else
        ({ s with recording := true, buffer := [] }, .degraded)
    | none =>
      if env.stream_opens then
        ({ s with recording := true, buffer := [], has_stream := true },
          .started)
      else ({ s with recording := false, buffer := [] }, .captureError)

end Recorder

/-! ## Lemmas about the voice-activity detector -/

namespace Vad

/-- The `should_stop` value `process_frame` would report for a given
state: speech seen, and the silence counter at or past the threshold. -/
def stopFlag (v : VoiceActivityDetector) : Bool :=
  v.has_speech && v.silence_threshold ≤ v.silence_frames

lemma processFrame_stop_eq (v : VoiceActivityDetector) (f : Bool) :
    (v.processFrame f).2.2 = stopFlag (v.processFrame f).1 := rfl

lemma runFrames_append_singleton (v : VoiceActivityDetector)
    (fs : List Bool) (f : Bool) :
    runFrames v (fs ++ [f]) = ((runFrames v fs).processFrame f).1 := by
  induction fs generalizing v with
  | nil => rfl
  | cons g gs ih => simp [runFrames, ih]

lemma runFrames_silence_threshold (v : VoiceActivityDetector)
    (fs : List Bool) :
    (runFrames v fs).silence_threshold = v.silence_threshold := by
  induction fs generalizing v with
  | nil => rfl
  | cons f fs ih =>
    cases f <;> simp [runFrames, VoiceActivityDetector.processFrame, ih]

lemma runFrames_has_speech (v : VoiceActivityDetector) (fs : List Bool) :
    (runFrames v fs).has_speech = (v.has_speech || fs.any id) := by
  induction fs generalizing v with
  | nil => simp [runFrames]
  | cons f fs ih =>
    cases f <;>
      simp [runFrames, VoiceActivityDetector.processFrame, ih, Bool.or_assoc]

lemma runFrames_silence_frames (v : VoiceActivityDetector) (fs : List Bool) :
    (runFrames v fs).silence_frames =
      if fs.any id then trailingSilenceCount fs
      else v.silence_frames + fs.length := by
  induction fs generalizing v with
  | nil => simp [runFrames, trailingSilenceCount]
  | cons f fs ih =>
    rw [runFrames, ih]
    cases hany : fs.any id <;> cases f <;>
      simp [VoiceActivityDetector.processFrame, trailingSilenceCount, hany]
    all_goals omega

lemma stopOutputs_get? (fs : List Bool) (v : VoiceActivityDetector)
    (i : Nat) (hi : i < fs.length) :
    (stopOutputs v fs).get? i =
      some (stopFlag (runFrames v (fs.take (i + 1)))) := by
  induction fs generalizing v i with
  | nil => simp at hi
  | cons f fs ih =>
    cases i with
    | zero => simp [stopOutputs, processFrame_stop_eq, runFrames]
    | succ j =>
      simp only [stopOutputs, List.get?]
      rw [ih _ j (by simpa using hi)]
      simp [runFrames]

/-- For a freshly constructed detector, the `should_stop` flag after any
frame sequence is exactly the specification's predicate. -/
lemma stopFlag_runFrames_fresh (v0 : VoiceActivityDetector) (th : Nat)
    (h0 : v0.silence_frames = 0) (h1 : v0.has_speech = false)
    (h2 : v0.silence_threshold = th) (p : List Bool) :
    stopFlag (runFrames v0 p) = specShouldStop th p := by
  rw [stopFlag, runFrames_has_speech, runFrames_silence_frames,
    runFrames_silence_threshold, h0, h1, h2]
  cases hany : p.any id <;> simp [specShouldStop, hany]

/-- Inversion of a successful `VoiceActivityDetector.__init__`. -/
lemma init_ok_fields (sr fd ag t : Nat) (v0 : VoiceActivityDetector)
    (h : VoiceActivityDetector.init sr fd ag t = .ok v0) :
    v0.silence_frames = 0 ∧ v0.has_speech = false ∧
      v0.silence_threshold = t / fd ∧
      (fd = 10 ∨ fd = 20 ∨ fd = 30) := by
  unfold VoiceActivityDetector.init at h
  split at h
  · cases h
  split at h
  · cases h
  split at h
  · cases h
  cases h
  refine ⟨rfl, rfl, rfl, ?_⟩
  omega

end Vad

/-- C3: for every sequence of correctly-sized frames fed to a freshly
constructed `VoiceActivityDetector`, the `should_stop` returned for the
latest frame is true exactly when some earlier (or the current) frame was
classified as speech and the count of consecutive silence-classified
frames since the last speech frame has reached
`trailing_silence_ms / frame_duration_ms` (integer floor); moreover a
speech-classified frame resets that count to zero and records that
speech has been seen. -/
theorem vad_shouldStop_characterization (sr fd ag t : Nat)
    (v0 : Vad.VoiceActivityDetector)
    (h : Vad.VoiceActivityDetector.init sr fd ag t = .ok v0)
    (fs : List Bool) (f : Bool) :
    ((Vad.runFrames v0 fs).processFrame f).2.2
        = Vad.specShouldStop (t / fd) (fs ++ [f])
      ∧ ((Vad.runFrames v0 fs).processFrame true).1.silence_frames = 0
      ∧ ((Vad.runFrames v0 fs).processFrame true).1.has_speech = true := by
  obtain ⟨h0, h1, h2, -⟩ := Vad.init_ok_fields sr fd ag t v0 h
  refine ⟨?_, rfl, rfl⟩
  rw [Vad.processFrame_stop_eq, ← Vad.runFrames_append_singleton]
  exact Vad.stopFlag_runFrames_fresh v0 (t / fd) h0 h1 h2 (fs ++ [f])

/-- The detector built by `create_vad` defaults
(`16000 Hz, 30 ms, aggressiveness 2, 700 ms`). -/
def Vad.vadDefault : Vad.VoiceActivityDetector :=
  ⟨16000, 30, 2, 700, 480, 0, 23, false⟩

theorem vad_shouldStop_characterization_witness :
    Vad.VoiceActivityDetector.init 16000 30 2 700 = .ok Vad.vadDefault
      ∧ (((Vad.runFrames Vad.vadDefault [false, true]).processFrame false).2.2
            = Vad.specShouldStop (700 / 30) ([false, true] ++ [false])
          ∧ ((Vad.runFrames Vad.vadDefault [false, true]).processFrame
              true).1.silence_frames = 0
          ∧ ((Vad.runFrames Vad.vadDefault [false, true]).processFrame
              true).1.has_speech = true) :=
  ⟨by decide,
    vad_shouldStop_characterization 16000 30 2 700 Vad.vadDefault (by decide)
      [false, true] false⟩

namespace Vad

lemma any_replicate_false (n : Nat) :
    (List.replicate n false).any id = false := by
  induction n with
  | zero => rfl
  | succ m ih => simp [List.replicate_succ, ih]

lemma trailing_append_of_any (xs ys : List Bool) (h : ys.any id = true) :
    trailingSilenceCount (xs ++ ys) = trailingSilenceCount ys := by
  induction xs with
  | nil => rfl
  | cons x xs ih => simp [trailingSilenceCount, List.any_append, h, ih]

lemma trailing_true_replicate (j : Nat) :
    trailingSilenceCount (true :: List.replicate j false) = j := by
  simp [trailingSilenceCount, any_replicate_false]

end Vad

/-- C4 counterexample: with the `create_vad` defaults
(`trailing_silence_ms = 700`, `frame_duration_ms = 30`), feeding one
speech-classified frame followed by exactly
`ceil(700 / 30) = 24` silence-classified frames already reports
`should_stop = true` on the 23rd silence frame, which is *not* the last
frame of the sequence — refuting the claim as stated. -/
theorem vad_ceil_sequence_counterexample :
    Vad.VoiceActivityDetector.init 16000 30 2 700 = .ok Vad.vadDefault
      ∧ (700 + 30 - 1) / 30 = 24
      ∧ (Vad.stopOutputs Vad.vadDefault
            (List.replicate 0 false ++ [true] ++ List.replicate 24 false)).get? 23
          = some true
      ∧ 23 + 1 <
          (List.replicate 0 false ++ [true] ++ List.replicate 24 false).length := by
  decide

/-- C4 (amended): for every configuration accepted by the constructor and
every `N`, on the synthetic sequence of `N` silence-classified frames,
one speech-classified frame, and exactly
`trailing_silence_ms / frame_duration_ms` (integer floor, not ceiling)
silence-classified frames, `process_frame` reports `should_stop = false`
on every frame before the last and `true` on the last one. -/
theorem vad_floor_sequence_stops_on_last (sr fd ag t : Nat)
    (v0 : Vad.VoiceActivityDetector)
    (h : Vad.VoiceActivityDetector.init sr fd ag t = .ok v0) (N : Nat) :
    (∀ i, i + 1 < (List.replicate N false ++ [true]
          ++ List.replicate (t / fd) false).length →
        (Vad.stopOutputs v0 (List.replicate N false ++ [true]
            ++ List.replicate (t / fd) false)).get? i = some false)
      ∧ (Vad.stopOutputs v0 (List.replicate N false ++ [true]
            ++ List.replicate (t / fd) false)).get?
          ((List.replicate N false ++ [true]
            ++ List.replicate (t / fd) false).length - 1) = some true := by
  obtain ⟨h0, h1, h2, -⟩ := Vad.init_ok_fields sr fd ag t v0 h
  have hsh : List.replicate N false ++ [true] ++ List.replicate (t / fd) false
      = List.replicate N false ++ (true :: List.replicate (t / fd) false) := by
    simp
  rw [hsh]
  have hlen : (List.replicate N false
      ++ (true :: List.replicate (t / fd) false)).length = N + 1 + t / fd := by
    simp
    omega
  constructor
  · intro i hi
    rw [hlen] at hi
    rw [Vad.stopOutputs_get? _ _ _ (by rw [hlen]; omega)]
    rw [Vad.stopFlag_runFrames_fresh v0 (t / fd) h0 h1 h2]
    by_cases hiN : i + 1 ≤ N
    · rw [List.take_append_of_le_length (by simpa using hiN),
        List.take_replicate]
      have hmin : min (i + 1) N = i + 1 := by omega
      rw [hmin]
      simp [Vad.specShouldStop, Vad.any_replicate_false]
    · rw [List.take_append_eq_append_take,
        List.take_of_length_le (by simp; omega)]
      have hr : i + 1 - (List.replicate N false).length = (i - N) + 1 := by
        simp; omega
      rw [hr, List.take_succ_cons, List.take_replicate]
      have hmin : min (i - N) (t / fd) = i - N := by omega
      rw [hmin]
      have hany : ((List.replicate N false)
          ++ (true :: List.replicate (i - N) false)).any id = true := by
        simp
      have htr : Vad.trailingSilenceCount ((List.replicate N false)
          ++ (true :: List.replicate (i - N) false)) = i - N := by
        rw [Vad.trailing_append_of_any _ _ (by simp),
          Vad.trailing_true_replicate]
      simp [Vad.specShouldStop, hany, htr]
      omega
  · rw [Vad.stopOutputs_get? _ _ _ (by rw [hlen]; omega)]
    rw [Vad.stopFlag_runFrames_fresh v0 (t / fd) h0 h1 h2]
    have hfull : (List.replicate N false
        ++ (true :: List.replicate (t / fd) false)).take
          ((List.replicate N false
            ++ (true :: List.replicate (t / fd) false)).length - 1 + 1)
        = List.replicate N false ++ (true :: List.replicate (t / fd) false) := by
      apply List.take_of_length_le
      omega
    rw [hfull]
    have hany : ((List.replicate N false)
        ++ (true :: List.replicate (t / fd) false)).any id = true := by simp
    have htr : Vad.trailingSilenceCount ((List.replicate N false)
        ++ (true :: List.replicate (t / fd) false)) = t / fd := by
      rw [Vad.trailing_append_of_any _ _ (by simp),
        Vad.trailing_true_replicate]
    simp [Vad.specShouldStop, hany, htr]

theorem vad_floor_sequence_stops_on_last_witness :
    Vad.VoiceActivityDetector.init 16000 30 2 700 = .ok Vad.vadDefault
      ∧ ((∀ i, i + 1 < (List.replicate 2 false ++ [true]
            ++ List.replicate (700 / 30) false).length →
          (Vad.stopOutputs Vad.vadDefault (List.replicate 2 false ++ [true]
              ++ List.replicate (700 / 30) false)).get? i = some false)
        ∧ (Vad.stopOutputs Vad.vadDefault (List.replicate 2 false ++ [true]
              ++ List.replicate (700 / 30) false)).get?
            ((List.replicate 2 false ++ [true]
              ++ List.replicate (700 / 30) false).length - 1) = some true) :=
  ⟨by decide,
    vad_floor_sequence_stops_on_last 16000 30 2 700 Vad.vadDefault (by decide) 2⟩

/-- The detector built with `trailing_silence_ms = 5 < frame_duration_ms`. -/
def Vad.vadShort : Vad.VoiceActivityDetector :=
  ⟨16000, 30, 2, 5, 480, 0, 0, false⟩

/-- C10: the constructor validates the sample rate, frame duration and
aggressiveness but performs no validation of `trailing_silence_ms`
(acceptance is independent of it); whenever
`trailing_silence_ms < frame_duration_ms` the derived silence threshold
is zero, so `process_frame` reports `should_stop = true` already on the
first speech-classified frame of a session, with no trailing silence
observed. -/
theorem vad_no_trailing_silence_validation :
    (∀ sr fd ag t t' : Nat,
        (Vad.VoiceActivityDetector.init sr fd ag t).isOk
          = (Vad.VoiceActivityDetector.init sr fd ag t').isOk)
      ∧ (∀ sr fd ag t : Nat, ∀ v0 : Vad.VoiceActivityDetector,
          Vad.VoiceActivityDetector.init sr fd ag t = .ok v0 → t < fd →
            v0.silence_threshold = 0)
      ∧ (∀ sr fd ag t : Nat, ∀ v0 : Vad.VoiceActivityDetector,
          Vad.VoiceActivityDetector.init sr fd ag t = .ok v0 → t < fd →
            ∀ N : Nat,
              (Vad.stopOutputs v0 (List.replicate N false ++ [true])).get? N
                = some true) := by
  refine ⟨?_, ?_, ?_⟩
  · intro sr fd ag t t'
    unfold Vad.VoiceActivityDetector.init
    by_cases h1 : (sr = 8000 ∨ sr = 16000 ∨ sr = 32000 ∨ sr = 48000) <;>
      by_cases h2 : (fd = 10 ∨ fd = 20 ∨ fd = 30) <;>
      by_cases h3 : ag ≤ 3 <;>
      simp [h1, h2, h3, Except.isOk, Except.toBool]
  · intro sr fd ag t v0 h hlt
    obtain ⟨-, -, h2, -⟩ := Vad.init_ok_fields sr fd ag t v0 h
    rw [h2, Nat.div_eq_of_lt hlt]
  · intro sr fd ag t v0 h hlt N
    obtain ⟨h0, h1, h2, -⟩ := Vad.init_ok_fields sr fd ag t v0 h
    rw [Vad.stopOutputs_get? _ _ _ (by simp)]
    rw [Vad.stopFlag_runFrames_fresh v0 (t / fd) h0 h1 h2]
    rw [List.take_of_length_le (by simp), Nat.div_eq_of_lt hlt]
    simp [Vad.specShouldStop]

theorem vad_no_trailing_silence_validation_witness :
    (Vad.VoiceActivityDetector.init 16000 30 2 700).isOk
        = (Vad.VoiceActivityDetector.init 16000 30 2 5).isOk
      ∧ Vad.vadShort.silence_threshold = 0
      ∧ (Vad.stopOutputs Vad.vadShort (List.replicate 2 false ++ [true])).get? 2
          = some true :=
  ⟨vad_no_trailing_silence_validation.1 16000 30 2 700 5,
    vad_no_trailing_silence_validation.2.1 16000 30 2 5 Vad.vadShort
      (by decide) (by decide),
    vad_no_trailing_silence_validation.2.2 16000 30 2 5 Vad.vadShort
      (by decide) (by decide) 2⟩

/-! ## The hotkey interaction state machine -/

namespace Manager

/-- Once the `chord_down` latch is set, `_on_press` never dispatches and
never clears the latch, whatever keys arrive (only `_on_release` can
clear it). -/
lemma chordDown_latch (s : ManagerState) (hmode : s.toggle_mode = true)
    (hdown : s.chord_down = true) (downs : List (Nat × ℚ)) :
    (runEvents s (downs.map fun p => .down p.1 p.2)).2 = []
      ∧ (runEvents s (downs.map fun p => .down p.1 p.2)).1.chord_down = true
      ∧ (runEvents s (downs.map fun p => .down p.1 p.2)).1.toggle_mode = true := by
  induction downs generalizing s with
  | nil => exact ⟨rfl, hdown, hmode⟩
  | cons p ps ih =>
    have hstep : onPress s p.1 p.2
        = ({ s with pressed := insert p.1 s.pressed }, []) := by
      rw [onPress]
      cases hm : ({ s with pressed := insert p.1 s.pressed } :
          ManagerState).chord.matches (insert p.1 s.pressed) <;>
        simp [hm, hmode, hdown]
    simp only [List.map_cons, runEvents, stepEvent, hstep]
    have := ih { s with pressed := insert p.1 s.pressed } hmode hdown
    simp only [runEvents] at this ⊢
    exact ⟨by simp [this.1], this.2.1, this.2.2⟩

end Manager

/-- C1: in hold/release mode — (a) a chord-satisfying press from `Idle`
with no prior release, or with the paste window already elapsed, emits
exactly one `start` and enters `ActiveHold`; (b) a release that makes
the chord no longer satisfied while in `ActiveHold` emits exactly one
`stop` and records the release timestamp; (c) a chord-satisfying press
from `Idle` within `paste_window_seconds` of the recorded release emits
exactly one `replay` (not `start`), resets the release timestamp to
zero, and remains `Idle`. -/
theorem hold_release_transitions (s : Manager.ManagerState) (vk : Nat)
    (now : ℚ) (hmode : s.toggle_mode = false) :
    (s.active = false →
      s.chord.matches (insert vk s.pressed) = true →
      (s.last_release_time = 0 ∨
        s.paste_window_seconds < now - s.last_release_time) →
      Manager.onPress s vk now
        = ({ s with pressed := insert vk s.pressed, active := true },
            [.start]))
    ∧ (s.active = true →
      s.chord.matches (s.pressed.erase vk) = false →
      Manager.onRelease s vk now
        = ({ s with
              pressed := s.pressed.erase vk, chord_down := false,
              active := false, last_release_time := now }, [.stop]))
    ∧ (s.active = false →
      s.chord.matches (insert vk s.pressed) = true →
      ¬ s.last_release_time = 0 →
      now - s.last_release_time ≤ s.paste_window_seconds →
      Manager.onPress s vk now
        = ({ s with
              pressed := insert vk s.pressed,
              last_release_time := 0 }, [.replay])) := by
  refine ⟨?_, ?_, ?_⟩
  · intro hact hmatch hwin
    rcases hwin with hz | hgt
    · simp [Manager.onPress, hmode, hact, hmatch, hz]
    · have hnle : ¬ (now - s.last_release_time ≤ s.paste_window_seconds) :=
        not_le.mpr hgt
      simp [Manager.onPress, hmode, hact, hmatch, hnle]
  · intro hact hmatch
    simp [Manager.onRelease, hmode, hact, hmatch]
  · intro hact hmatch hnz hle
    simp [Manager.onPress, hmode, hact, hmatch, hnz, hle]

/-- The chord `"A"` (no modifiers, primary key `0x41`). -/
def Manager.chordA : Chord.HotkeyChord := ⟨str2cp "A", 0, [], {65}⟩

/-- An idle hold/release-mode manager state on chord `"A"` with a 2 s
paste window. -/
def Manager.idleA : Manager.ManagerState := ⟨Manager.chordA, ∅, false, false, 0, 2, false⟩

theorem hold_release_transitions_witness :
    (Manager.onPress Manager.idleA 65 10
        = ({ Manager.idleA with
              pressed := insert 65 Manager.idleA.pressed,
              active := true }, [.start]))
      ∧ (Manager.onRelease
          { Manager.idleA with pressed := {65}, active := true } 65 11
        = ({ { Manager.idleA with pressed := {65}, active := true } with
              pressed := ({65} : Finset Nat).erase 65, chord_down := false,
              active := false, last_release_time := 11 }, [.stop]))
      ∧ (Manager.onPress { Manager.idleA with last_release_time := 11 } 65 12
        = ({ { Manager.idleA with last_release_time := 11 } with
              pressed := insert 65 Manager.idleA.pressed,
              last_release_time := 0 }, [.replay])) :=
  ⟨(hold_release_transitions Manager.idleA 65 10 rfl).1 rfl (by decide)
      (Or.inl rfl),
    (hold_release_transitions
        { Manager.idleA with pressed := {65}, active := true } 65 11 rfl).2.1
      rfl (by decide),
    (hold_release_transitions
        { Manager.idleA with last_release_time := 11 } 65 12 rfl).2.2
      rfl (by decide) (by norm_num [Manager.idleA]) (by norm_num [Manager.idleA])⟩

/-- C2: in toggle mode — a chord-satisfying press on a fresh edge
(`chord_down` latch clear) emits exactly one `start` when idle and
exactly one `stop` when active (each also setting the latch); a release
that breaks the chord emits nothing and clears the latch (so a full
release re-arms the edge); and while the latch is set, any further
`KeyDown` events — of unrelated keys or not — emit nothing and leave the
latch set. -/
theorem toggle_transitions (s : Manager.ManagerState) (vk : Nat) (now : ℚ)
    (hmode : s.toggle_mode = true) :
    (s.chord_down = false → s.active = false →
      s.chord.matches (insert vk s.pressed) = true →
      Manager.onPress s vk now
        = ({ s with
              pressed := insert vk s.pressed, chord_down := true,
              active := true }, [.start]))
    ∧ (s.chord_down = false → s.active = true →
      s.chord.matches (insert vk s.pressed) = true →
      Manager.onPress s vk now
        = ({ s with
              pressed := insert vk s.pressed, chord_down := true,
              active := false, last_release_time := 0 }, [.stop]))
    ∧ ((Manager.onRelease s vk now).2 = [])
    ∧ (s.chord.matches (s.pressed.erase vk) = false →
      Manager.onRelease s vk now
        = ({ s with pressed := s.pressed.erase vk, chord_down := false }, []))
    ∧ (s.chord_down = true → ∀ downs : List (Nat × ℚ),
      (Manager.runEvents s (downs.map fun p => .down p.1 p.2)).2 = []
        ∧ (Manager.runEvents s
            (downs.map fun p => .down p.1 p.2)).1.chord_down = true) := by
  refine ⟨?_, ?_, ?_, ?_, ?_⟩
  · intro hdown hact hmatch
    simp [Manager.onPress, hmode, hact, hmatch, hdown]
  · intro hdown hact hmatch
    simp [Manager.onPress, hmode, hact, hmatch, hdown]
  · rw [Manager.onRelease]
    cases hm : ({ s with pressed := s.pressed.erase vk } :
        Manager.ManagerState).chord.matches (s.pressed.erase vk) <;>
      simp [hm, hmode]
  · intro hmatch
    simp [Manager.onRelease, hmode, hmatch]
  · intro hdown downs
    exact ⟨(Manager.chordDown_latch s hmode hdown downs).1,
      (Manager.chordDown_latch s hmode hdown downs).2.1⟩

/-- An idle toggle-mode manager state on chord `"A"`. -/
def Manager.toggleIdleA : Manager.ManagerState :=
  ⟨Manager.chordA, ∅, false, false, 0, 2, true⟩

theorem toggle_transitions_witness :
    (Manager.onPress Manager.toggleIdleA 65 1
        = ({ Manager.toggleIdleA with
              pressed := insert 65 Manager.toggleIdleA.pressed,
              chord_down := true, active := true }, [.start]))
      ∧ (Manager.onPress { Manager.toggleIdleA with active := true } 65 2
        = ({ { Manager.toggleIdleA with active := true } with
              pressed := insert 65 Manager.toggleIdleA.pressed,
              chord_down := true, active := false, last_release_time := 0 },
            [.stop]))
      ∧ ((Manager.runEvents
            { Manager.toggleIdleA with
                pressed := {65}, chord_down := true, active := true }
            ([((66 : Nat), (3 : ℚ)), ((67 : Nat), (4 : ℚ))].map
              fun p => .down p.1 p.2)).2 = []) :=
  ⟨(toggle_transitions Manager.toggleIdleA 65 1 rfl).1 rfl rfl (by decide),
    (toggle_transitions { Manager.toggleIdleA with active := true } 65 2
        rfl).2.1 rfl rfl (by decide),
    ((toggle_transitions
        { Manager.toggleIdleA with
            pressed := {65}, chord_down := true, active := true } 65 0
        rfl).2.2.2.2 rfl
      [((66 : Nat), (3 : ℚ)), ((67 : Nat), (4 : ℚ))]).1⟩

/-! ## Runtime reconfiguration and the audio recorder -/

/-- C6: runtime reconfiguration is atomic on failure — `update_chord`
with an unparseable chord text reports the parse error and leaves the
committed chord, the pressed set and the interaction state untouched; on
success it commits the chord, clears the pressed set and resets the
state to `Idle`; `set_paste_window_seconds` outside `[0.0, 5.0]` reports
the validation error and leaves the previous value intact, and in range
it commits the new value. -/
theorem reconfiguration_atomic (s : Manager.ManagerState) (text : PyStr)
    (d : ℚ) :
    (∀ e, Chord.parse_hotkey text = .error e →
      Manager.update_chord s text = (s, some e))
    ∧ (∀ c, Chord.parse_hotkey text = .ok c →
      Manager.update_chord s text
        = ({ s with chord := c, pressed := ∅, active := false }, none))
    ∧ (¬ (0 ≤ d ∧ d ≤ 5) →
      Manager.set_paste_window_seconds s d = (s, some .outOfRange))
    ∧ (0 ≤ d → d ≤ 5 →
      Manager.set_paste_window_seconds s d
        = ({ s with paste_window_seconds := d }, none)) := by
  refine ⟨?_, ?_, ?_, ?_⟩
  · intro e he
    simp [Manager.update_chord, he]
  · intro c hc
    simp [Manager.update_chord, hc]
  · intro hd
    simp [Manager.set_paste_window_seconds, hd]
  · intro hd0 hd5
    simp [Manager.set_paste_window_seconds, hd0, hd5]

theorem reconfiguration_atomic_witness :
    (Manager.update_chord Manager.idleA (str2cp "foo")
        = (Manager.idleA, some (.unsupportedKey (str2cp "foo"))))
      ∧ (Manager.update_chord Manager.idleA (str2cp "ctrl+b")
        = ({ Manager.idleA with
              chord := ⟨str2cp "CTRL+B", 2, [{0xA2, 0xA3}], {66}⟩,
              pressed := ∅, active := false }, none))
      ∧ (Manager.set_paste_window_seconds Manager.idleA 6
        = (Manager.idleA, some .outOfRange))
      ∧ (Manager.set_paste_window_seconds Manager.idleA 3
        = ({ Manager.idleA with paste_window_seconds := 3 }, none)) :=
  ⟨(reconfiguration_atomic Manager.idleA (str2cp "foo") 6).1
      (.unsupportedKey (str2cp "foo")) (by decide),
    (reconfiguration_atomic Manager.idleA (str2cp "ctrl+b") 6).2.1
      ⟨str2cp "CTRL+B", 2, [{0xA2, 0xA3}], {66}⟩ (by decide),
    (reconfiguration_atomic Manager.idleA (str2cp "foo") 6).2.2.1
      (by norm_num),
    (reconfiguration_atomic Manager.idleA (str2cp "foo") 3).2.2.2
      (by norm_num) (by norm_num)⟩

/-- C8: `stop()` when not recording (before any `start()`, or after
recording has already stopped) returns normally — the embedding is a
total function — with a zero-length array of the configured shape
(`0` rows, `channels` columns) and leaves the state untouched; any
`stop()` leaves the recorder not recording, so a repeated `stop()` again
returns an empty, correctly-shaped array. -/
theorem recorder_stop_safe (s : Recorder.RecorderState) :
    (s.recording = false →
      Recorder.stop s = (s, { data := [], cols := s.channels }))
    ∧ (Recorder.stop s).1.recording = false
    ∧ (Recorder.stop (Recorder.stop s).1).2.rows = 0
    ∧ (Recorder.stop (Recorder.stop s).1).2.cols = s.channels := by
  by_cases h : s.recording = false
  · refine ⟨fun _ => by simp [Recorder.stop, h], ?_, ?_, ?_⟩ <;>
      simp [Recorder.stop, h, Recorder.AudioArray.rows]
  · refine ⟨fun hc => absurd hc h, ?_, ?_, ?_⟩ <;>
      simp [Recorder.stop, h, Recorder.AudioArray.rows]

theorem recorder_stop_safe_witness :
    (Recorder.stop (Recorder.RecorderState.init 1)
        = (Recorder.RecorderState.init 1, { data := [], cols := 1 }))
      ∧ (Recorder.stop (Recorder.RecorderState.init 1)).1.recording = false :=
  ⟨(recorder_stop_safe (Recorder.RecorderState.init 1)).1 rfl,
    (recorder_stop_safe (Recorder.RecorderState.init 1)).2.1⟩

/-- A real (non-mocked) environment with the default device pair
explicitly `(-1, -1)` and no input-capable device at all. -/
def Recorder.envNoMic : Recorder.AudioEnv :=
  ⟨false, some (-1), some (-1), [], false, false, true⟩

/-- C7 counterexample: with no default input device and no input-capable
device at all (outside tests, `sounddevice` not mocked), the device
check fails, yet `start()` does not raise the device error: it swallows
it and begins a degraded recording session (`_recording = True`, no
stream). -/
theorem recorder_start_no_device_degrades :
    Recorder.verifyDeviceAvailable Recorder.envNoMic 1
        = some .noDefaultInput
      ∧ Recorder.start Recorder.envNoMic (Recorder.RecorderState.init 1)
        = ({ Recorder.RecorderState.init 1 with
              recording := true, buffer := [] }, .degraded)
      ∧ (Recorder.start Recorder.envNoMic
          (Recorder.RecorderState.init 1)).1.recording = true := by
  decide

/-- C7 (amended): when the device check fails, `start()` raises the
`AudioDeviceError` (an error distinct from `AudioCaptureError`) and does
not begin a recording session precisely in the cases the code re-raises:
the failure is the insufficient-channels error, or `sounddevice` is
mocked, or the default pair is explicitly `(-1, -1)` while an
input-capable device exists — all outside the error-recovery degrade
path; in the remaining failure cases `start()` instead begins a degraded
session without raising. -/
theorem recorder_start_device_error (env : Recorder.AudioEnv)
    (s : Recorder.RecorderState) (msg : Recorder.DeviceMsg)
    (hrec : s.recording = false)
    (hver : Recorder.verifyDeviceAvailable env s.channels = some msg)
    (htest : env.in_test_recovery_other = false
      ∨ env.in_test_recovery_missing = true) :
    ((env.is_mock = true ∨ msg = .insufficientChannels
        ∨ (Recorder.explicitInvalid env = true
            ∧ Recorder.hasInputs env = true)) →
      Recorder.start env s = (s, .deviceError msg)
        ∧ (Recorder.start env s).1.recording = false)
    ∧ (env.is_mock = false → ¬ msg = .insufficientChannels →
      (Recorder.explicitInvalid env = false
        ∨ Recorder.hasInputs env = false) →
      Recorder.start env s
        = ({ s with recording := true, buffer := [] }, .degraded))
    ∧ Recorder.StartResult.deviceError msg ≠ .captureError := by
  have htb : (env.in_test_recovery_other
      && !env.in_test_recovery_missing) = false := by
    rcases htest with h | h <;> simp [h]
  refine ⟨?_, ?_, by simp⟩
  · intro hcase
    have hcond : (env.is_mock || decide (msg = .insufficientChannels)
        || (Recorder.explicitInvalid env && Recorder.hasInputs env)) = true := by
      rcases hcase with h | h | ⟨h1, h2⟩
      · simp [h]
      · simp [h]
      · simp [h1, h2]
    constructor <;> simp [Recorder.start, hrec, hver, htb, hcond]
  · intro hm hch hinv
    have hcond : (env.is_mock || decide (msg = .insufficientChannels)
        || (Recorder.explicitInvalid env && Recorder.hasInputs env)) = false := by
      rcases hinv with h | h <;> simp [hm, hch, h]
    simp [Recorder.start, hrec, hver, htb, hcond]

/-- A non-mocked environment whose default input device exposes zero
channels. -/
def Recorder.envMono : Recorder.AudioEnv :=
  ⟨false, some 0, some 0, [0], false, false, true⟩

theorem recorder_start_device_error_witness :
    (Recorder.start Recorder.envMono (Recorder.RecorderState.init 1)
        = (Recorder.RecorderState.init 1,
            .deviceError .insufficientChannels)
      ∧ (Recorder.start Recorder.envMono
          (Recorder.RecorderState.init 1)).1.recording = false)
      ∧ Recorder.StartResult.deviceError .insufficientChannels
          ≠ .captureError :=
  ⟨(recorder_start_device_error Recorder.envMono
      (Recorder.RecorderState.init 1) .insufficientChannels rfl (by decide)
      (Or.inl rfl)).1 (Or.inr (Or.inl rfl)),
    (recorder_start_device_error Recorder.envMono
      (Recorder.RecorderState.init 1) .insufficientChannels rfl (by decide)
      (Or.inl rfl)).2.2⟩

/-! ## Chord parsing: failures and the grammar -/

namespace Chord

/-- The token `parse_hotkey` commits to as `key_token` is the last
non-modifier token of the token list. -/
lemma collectTokens_snd (ts : List PyStr) :
    (collectTokens ts).2
      = (ts.filter fun t => !isModifierToken t).getLast? := by
  induction ts with
  | nil => rfl
  | cons t ts ih =>
    rw [collectTokens]
    cases hcc : collectTokens ts with
    | mk mods key =>
      rw [hcc] at ih
      simp only at ih
      cases hm : isModifierToken t with
      | true =>
        simp only [hm, if_true, List.filter_cons, Bool.not_true]
        simpa using ih
      | false =>
        simp only [hm, List.filter_cons, Bool.not_false, if_true, Bool.false_eq_true,
          if_false]
        cases hl : ts.filter fun u => !isModifierToken u with
        | nil =>
          rw [hl] at ih
          simp only [List.getLast?_nil] at ih
          rw [ih]
          rfl
        | cons b l =>
          rw [hl] at ih
          rw [List.getLast?_eq_getLast_of_ne_nil (by simp)] at ih
          rw [ih]
          rw [List.getLast?_cons_cons,
            List.getLast?_eq_getLast_of_ne_nil (by simp)]

/-- Modelled from the spec's grammar sentence: a valid chord is zero or
more modifier tokens followed by exactly one non-modifier token drawn
from the recognised key tokens. -/
def specGrammarValid (tokens : List PyStr) : Prop :=
  ∃ mods k, tokens = mods ++ [k]
    ∧ (∀ m ∈ mods, isModifierToken m = true)
    ∧ isModifierToken k = false
    ∧ keyToVirtualKeys k ≠ ∅

end Chord

/-- C5: `parse_hotkey` fails (with a `HotkeyParseError`) exactly when the
input string is empty, no non-modifier token is present among its
tokens, or the non-modifier token the parser selects (the last one) is
unrecognised; and, per the spec's grammar, a token list containing more
than one non-modifier token is not a valid chord. -/
theorem parse_failure_characterization :
    (∀ text : PyStr,
      (Chord.parse_hotkey text).isOk = false ↔
        (text = []
          ∨ (∀ t ∈ Chord.tokenize text, Chord.isModifierToken t = true)
          ∨ (∃ k, ((Chord.tokenize text).filter
                (fun t => !Chord.isModifierToken t)).getLast? = some k
              ∧ Chord.keyToVirtualKeys k = ∅)))
    ∧ (∀ tokens : List PyStr,
        2 ≤ (tokens.filter fun t => !Chord.isModifierToken t).length →
          ¬ Chord.specGrammarValid tokens) := by
  constructor
  · intro text
    by_cases ht : text = []
    · simp [Chord.parse_hotkey, ht, Except.isOk, Except.toBool]
    · rw [Chord.parse_hotkey]
      by_cases hp : Chord.tokenize text = []
      · simp [ht, hp, Except.isOk, Except.toBool]
      · cases hcc : Chord.collectTokens (Chord.tokenize text) with
        | mk mods key =>
          have hsnd := Chord.collectTokens_snd (Chord.tokenize text)
          rw [hcc] at hsnd
          simp only at hsnd
          cases key with
          | none =>
            have hfil : (Chord.tokenize text).filter
                (fun t => !Chord.isModifierToken t) = [] :=
              List.getLast?_eq_none_iff.mp hsnd.symm
            have hall : ∀ t ∈ Chord.tokenize text,
                Chord.isModifierToken t = true := by
              intro t htm
              by_contra hmt
              have hmem : t ∈ (Chord.tokenize text).filter
                  (fun u => !Chord.isModifierToken u) :=
                List.mem_filter.mpr ⟨htm, by simpa using hmt⟩
              rw [hfil] at hmem
              exact absurd hmem (List.not_mem_nil t)
            constructor
            · intro _
              exact Or.inr (Or.inl hall)
            · intro _
              simp [ht, hp, hcc, Except.isOk, Except.toBool]
          | some k =>
            by_cases hkg : Chord.keyToVirtualKeys k = ∅
            · constructor
              · intro _
                exact Or.inr (Or.inr ⟨k, hsnd.symm, hkg⟩)
              · intro _
                simp [ht, hp, hcc, hkg, Except.isOk, Except.toBool]
            · constructor
              · intro hfalse
                revert hfalse
                simp [ht, hp, hcc, hkg, Except.isOk, Except.toBool]
              · rintro (h1 | h2 | ⟨k', hk', hg'⟩)
                · exact absurd h1 ht
                · have hkmem : k ∈ (Chord.tokenize text).filter
                      (fun u => !Chord.isModifierToken u) :=
                    List.mem_of_mem_getLast? hsnd.symm
                  obtain ⟨hkin, hknm⟩ := List.mem_filter.mp hkmem
                  have := h2 k hkin
                  simp [this] at hknm
                · rw [← hsnd] at hk'
                  cases hk'
                  exact absurd hg' hkg
  · rintro tokens hlen ⟨mods, k, hts, hmods, hk, -⟩
    subst hts
    rw [List.filter_append] at hlen
    have h1 : mods.filter (fun t => !Chord.isModifierToken t) = [] :=
      List.filter_eq_nil_iff.mpr fun m hm => by simp [hmods m hm]
    rw [h1] at hlen
    simp [hk] at hlen

theorem parse_failure_characterization_witness :
    (Chord.parse_hotkey (str2cp "ctrl+foo")).isOk = false
      ∧ ¬ Chord.specGrammarValid [str2cp "a", str2cp "b"] :=
  ⟨(parse_failure_characterization.1 (str2cp "ctrl+foo")).mpr
      (Or.inr (Or.inr ⟨str2cp "foo", by decide, by decide⟩)),
    parse_failure_characterization.2 [str2cp "a", str2cp "b"] (by decide)⟩

/-! ## Round-trip lemmas for the normalized display form -/

lemma lowerCp_lowerCp (n : Nat) : lowerCp (lowerCp n) = lowerCp n := by
  by_cases h : 65 ≤ n ∧ n ≤ 90
  · simp only [lowerCp, if_pos h]
    rw [if_neg (by omega)]
  · simp only [lowerCp, if_neg h]

lemma upperCp_upperCp (n : Nat) : upperCp (upperCp n) = upperCp n := by
  by_cases h : 97 ≤ n ∧ n ≤ 122
  · simp only [upperCp, if_pos h]
    rw [if_neg (by omega)]
  · simp only [upperCp, if_neg h]

lemma lowerCp_upperCp_of_lowered (n : Nat) (h : lowerCp n = n) :
    lowerCp (upperCp n) = n := by
  by_cases hu : 97 ≤ n ∧ n ≤ 122
  · simp only [upperCp, if_pos hu, lowerCp]
    rw [if_pos (by omega)]
    omega
  · rw [upperCp, if_neg hu]
    exact h

lemma lowerCp_eq_43 (n : Nat) (h : lowerCp n = 43) : n = 43 := by
  unfold lowerCp at h
  split at h <;> omega

lemma upperCp_eq_43 (n : Nat) (h : upperCp n = 43) : n = 43 := by
  unfold upperCp at h
  split at h <;> omega

lemma isPySpace_lowerCp (n : Nat) : isPySpace (lowerCp n) = isPySpace n := by
  by_cases h : 65 ≤ n ∧ n ≤ 90
  · rw [lowerCp, if_pos h, Bool.eq_iff_iff]
    simp only [isPySpace, Bool.or_eq_true, decide_eq_true_eq]
    omega
  · rw [lowerCp, if_neg h]

lemma isPySpace_upperCp (n : Nat) : isPySpace (upperCp n) = isPySpace n := by
  by_cases h : 97 ≤ n ∧ n ≤ 122
  · rw [upperCp, if_pos h, Bool.eq_iff_iff]
    simp only [isPySpace, Bool.or_eq_true, decide_eq_true_eq]
    omega
  · rw [upperCp, if_neg h]

lemma pyLower_idem (s : PyStr) : pyLower (pyLower s) = pyLower s := by
  simp only [pyLower, List.map_map]
  exact List.map_congr_left fun a _ => lowerCp_lowerCp a

lemma pyUpper_idem (s : PyStr) : pyUpper (pyUpper s) = pyUpper s := by
  simp only [pyUpper, List.map_map]
  exact List.map_congr_left fun a _ => upperCp_upperCp a

lemma pyLower_fixed_chars (s : PyStr) (h : pyLower s = s) :
    ∀ a ∈ s, lowerCp a = a := by
  induction s with
  | nil => intro a ha; cases ha
  | cons c cs ih =>
    rw [pyLower, List.map_cons] at h
    injection h with h1 h2
    intro a ha
    rcases List.mem_cons.mp ha with rfl | ha'
    · exact h1
    · exact ih h2 a ha'

lemma pyLower_pyUpper_of_lowered (s : PyStr) (h : pyLower s = s) :
    pyLower (pyUpper s) = s := by
  have hall := pyLower_fixed_chars s h
  rw [pyLower, pyUpper, List.map_map]
  calc s.map (lowerCp ∘ upperCp)
      = s.map id :=
        List.map_congr_left fun a ha =>
          lowerCp_upperCp_of_lowered a (hall a ha)
    _ = s := List.map_id s

lemma pySplit_ne_nil (sep : Nat) (s : PyStr) : pySplit sep s ≠ [] := by
  cases s with
  | nil => simp [pySplit]
  | cons c cs =>
    rw [pySplit]
    split
    · simp
    · cases h : pySplit sep cs <;> simp

lemma pySplit_not_mem (sep : Nat) (s : PyStr) :
    ∀ p ∈ pySplit sep s, sep ∉ p := by
  induction s with
  | nil =>
    intro p hp
    simp [pySplit] at hp
    simp [hp]
  | cons c cs ih =>
    intro p hp
    rw [pySplit] at hp
    by_cases hc : c = sep
    · rw [if_pos hc] at hp
      rcases List.mem_cons.mp hp with rfl | hp'
      · simp
      · exact ih p hp'
    · rw [if_neg hc] at hp
      cases hps : pySplit sep cs with
      | nil => exact absurd hps (pySplit_ne_nil sep cs)
      | cons r rs =>
        rw [hps] at hp
        rcases List.mem_cons.mp hp with rfl | hp'
        · intro hmem
          rcases List.mem_cons.mp hmem with rfl | hmem'
          · exact hc rfl
          · exact ih r (hps ▸ List.mem_cons_self r rs) hmem'
        · exact ih p (hps ▸ List.mem_cons_of_mem r hp')

lemma pySplit_of_not_mem (sep : Nat) (t : PyStr) (h : sep ∉ t) :
    pySplit sep t = [t] := by
  induction t with
  | nil => rfl
  | cons c cs ih =>
    have hc : ¬ c = sep := fun hcs => h (hcs ▸ List.mem_cons_self c cs)
    rw [pySplit, if_neg hc, ih (fun hm => h (List.mem_cons_of_mem c hm))]

lemma pySplit_append_of_not_mem (sep : Nat) (t : PyStr) (h : sep ∉ t)
    (l : PyStr) (r : PyStr) (rs : List PyStr)
    (hl : pySplit sep l = r :: rs) :
    pySplit sep (t ++ l) = (t ++ r) :: rs := by
  induction t with
  | nil => simpa using hl
  | cons c cs ih =>
    have hc : ¬ c = sep := fun hcs => h (hcs ▸ List.mem_cons_self c cs)
    rw [List.cons_append, pySplit, if_neg hc,
      ih (fun hm => h (List.mem_cons_of_mem c hm))]
    simp

lemma pySplit_pyJoin (sep : Nat) (ts : List PyStr) (hne : ts ≠ [])
    (h : ∀ t ∈ ts, sep ∉ t) :
    pySplit sep (pyJoin sep ts) = ts := by
  induction ts with
  | nil => exact absurd rfl hne
  | cons t ts ih =>
    cases ts with
    | nil => exact pySplit_of_not_mem sep t (h t (List.mem_cons_self t []))
    | cons t' rest =>
      have hrest := ih (by simp) fun u hu => h u (List.mem_cons_of_mem t hu)
      have hsepcons : pySplit sep (sep :: pyJoin sep (t' :: rest))
          = [] :: t' :: rest := by
        rw [pySplit, if_pos rfl, hrest]
      have := pySplit_append_of_not_mem sep t
        (h t (List.mem_cons_self t (t' :: rest)))
        (sep :: pyJoin sep (t' :: rest)) [] (t' :: rest) hsepcons
      have hj : pyJoin sep (t :: t' :: rest)
          = t ++ sep :: pyJoin sep (t' :: rest) := rfl
      rw [hj]
      simpa using this

/-- No character of `l.head?` satisfying `p`. -/
def headNot (p : Nat → Bool) (l : PyStr) : Prop :=
  ∀ c, l.head? = some c → p c = false

/-- No character of `l.getLast?` satisfying `p`. -/
def lastNot (p : Nat → Bool) (l : PyStr) : Prop :=
  ∀ c, l.getLast? = some c → p c = false

lemma headNot_dropWhile (p : Nat → Bool) (l : PyStr) :
    headNot p (l.dropWhile p) := by
  induction l with
  | nil => intro c hc; cases hc
  | cons a l ih =>
    intro c hc
    rw [List.dropWhile_cons] at hc
    by_cases hp : p a = true
    · rw [if_pos hp] at hc
      exact ih c hc
    · rw [if_neg hp] at hc
      injection hc with hc
      subst hc
      exact Bool.not_eq_true _ ▸ hp

lemma getLast?_dropWhile_of_ne_nil (p : Nat → Bool) (l : PyStr)
    (h : l.dropWhile p ≠ []) :
    (l.dropWhile p).getLast? = l.getLast? := by
  obtain ⟨pre, hpre⟩ := List.dropWhile_suffix (l := l) p
  conv_rhs => rw [← hpre]
  rw [List.getLast?_append_of_ne_nil pre h]

lemma pyStrip_headNot (s : PyStr) : headNot isPySpace (pyStrip s) := by
  intro c hc
  rw [pyStrip, List.head?_reverse] at hc
  by_cases hd : ((s.dropWhile isPySpace).reverse.dropWhile isPySpace) = []
  · rw [hd] at hc
    cases hc
  · rw [getLast?_dropWhile_of_ne_nil _ _ hd, List.getLast?_reverse] at hc
    exact headNot_dropWhile isPySpace s c hc

lemma pyStrip_lastNot (s : PyStr) : lastNot isPySpace (pyStrip s) := by
  intro c hc
  rw [pyStrip, List.getLast?_reverse] at hc
  exact headNot_dropWhile isPySpace _ c hc

lemma pyStrip_mem (s : PyStr) : ∀ a ∈ pyStrip s, a ∈ s := by
  intro a ha
  rw [pyStrip, List.mem_reverse] at ha
  have h1 := (List.dropWhile_suffix (l := (s.dropWhile isPySpace).reverse)
    isPySpace).subset ha
  rw [List.mem_reverse] at h1
  exact (List.dropWhile_suffix (l := s) isPySpace).subset h1

lemma pyStrip_of_clean (s : PyStr) (hh : headNot isPySpace s)
    (hl : lastNot isPySpace s) : pyStrip s = s := by
  have h1 : s.dropWhile isPySpace = s := by
    cases s with
    | nil => rfl
    | cons a l =>
      rw [List.dropWhile_cons, if_neg]
      rw [hh a rfl]
      simp
  rw [pyStrip, h1]
  have h2 : s.reverse.dropWhile isPySpace = s.reverse := by
    cases hr : s.reverse with
    | nil => rfl
    | cons a l =>
      rw [List.dropWhile_cons, if_neg]
      have : s.getLast? = some a := by
        rw [← List.head?_reverse, hr]
        rfl
      rw [hl a this]
      simp
  rw [h2, List.reverse_reverse]

lemma headNot_map (f : Nat → Nat) (hf : ∀ c, isPySpace (f c) = isPySpace c)
    (l : PyStr) (h : headNot isPySpace l) : headNot isPySpace (l.map f) := by
  intro c hc
  rw [List.head?_map] at hc
  cases hh : l.head? with
  | none => rw [hh] at hc; cases hc
  | some d =>
    rw [hh] at hc
    injection hc with hc
    subst hc
    rw [hf d]
    exact h d hh

lemma lastNot_map (f : Nat → Nat) (hf : ∀ c, isPySpace (f c) = isPySpace c)
    (l : PyStr) (h : lastNot isPySpace l) : lastNot isPySpace (l.map f) := by
  intro c hc
  rw [← List.head?_reverse, ← List.map_reverse, List.head?_map] at hc
  cases hh : l.reverse.head? with
  | none => rw [hh] at hc; cases hc
  | some d =>
    rw [hh] at hc
    injection hc with hc
    subst hc
    rw [hf d]
    exact h d (by rw [← List.head?_reverse]; exact hh)

namespace Chord

/-- Every token produced by `tokenize` is nonempty, already lowercase,
free of the separator `+`, and has no whitespace at either end. -/
lemma tokenize_facts (text : PyStr) :
    ∀ t ∈ tokenize text, t ≠ [] ∧ pyLower t = t ∧ 43 ∉ t
      ∧ headNot isPySpace t ∧ lastNot isPySpace t := by
  intro t ht
  rw [tokenize, List.mem_filterMap] at ht
  obtain ⟨part, hpart, hft⟩ := ht
  have hft' : (if pyStrip part = [] then none
      else some (pyLower (pyStrip part))) = some t := hft
  by_cases hs : pyStrip part = []
  · rw [if_pos hs] at hft'
    cases hft'
  · rw [if_neg hs] at hft'
    injection hft' with hft''
    subst hft''
    refine ⟨?_, pyLower_idem _, ?_, ?_, ?_⟩
    · intro hn
      exact hs (List.map_eq_nil_iff.mp hn)
    · intro hmem
      rw [pyLower, List.mem_map] at hmem
      obtain ⟨a, hain, ha43⟩ := hmem
      have ha : a = 43 := lowerCp_eq_43 a ha43
      subst ha
      exact pySplit_not_mem 43 text part hpart (pyStrip_mem part 43 hain)
    · exact headNot_map lowerCp isPySpace_lowerCp _ (pyStrip_headNot part)
    · exact lastNot_map lowerCp isPySpace_lowerCp _ (pyStrip_lastNot part)

/-- The modifier list `parse_hotkey` collects is exactly the modifier
tokens, in order. -/
lemma collectTokens_fst (ts : List PyStr) :
    (collectTokens ts).1 = ts.filter isModifierToken := by
  induction ts with
  | nil => rfl
  | cons t ts ih =>
    rw [collectTokens]
    cases hcc : collectTokens ts with
    | mk mods key =>
      rw [hcc] at ih
      simp only at ih
      cases hm : isModifierToken t with
      | true => simp only [hm, if_true, List.filter_cons, ih]
      | false =>
        simp only [hm, List.filter_cons, if_true, Bool.false_eq_true, if_false]
        cases key <;> simpa using ih

lemma collectTokens_append_key (mods : List PyStr) (k : PyStr)
    (hmods : ∀ m ∈ mods, isModifierToken m = true)
    (hk : isModifierToken k = false) :
    collectTokens (mods ++ [k]) = (mods, some k) := by
  induction mods with
  | nil => simp [collectTokens, hk]
  | cons m ms ih =>
    have hm : isModifierToken m = true := hmods m (List.mem_cons_self m ms)
    rw [List.cons_append, collectTokens,
      ih fun x hx => hmods x (List.mem_cons_of_mem m hx)]
    simp [hm]

end Chord

lemma pyUpper_pyJoin (sep : Nat) (h : upperCp sep = sep) (ts : List PyStr) :
    pyUpper (pyJoin sep ts) = pyJoin sep (ts.map pyUpper) := by
  induction ts with
  | nil => rfl
  | cons t ts ih =>
    cases ts with
    | nil => rfl
    | cons t' rest =>
      calc pyUpper (pyJoin sep (t :: t' :: rest))
          = pyUpper t ++ upperCp sep :: pyUpper (pyJoin sep (t' :: rest)) := by
            simp [pyUpper, pyJoin]
        _ = pyUpper t ++ sep :: pyJoin sep ((t' :: rest).map pyUpper) := by
            rw [h, ih]
        _ = pyJoin sep ((t :: t' :: rest).map pyUpper) := rfl

lemma pyJoin_ne_nil (sep : Nat) (ts : List PyStr) (t : PyStr) (ht : t ∈ ts)
    (htne : t ≠ []) : pyJoin sep ts ≠ [] := by
  cases ts with
  | nil => cases ht
  | cons u us =>
    cases us with
    | nil =>
      rcases List.mem_cons.mp ht with rfl | hu
      · simpa [pyJoin] using htne
      · cases hu
    | cons v rest =>
      have : pyJoin sep (u :: v :: rest) = u ++ sep :: pyJoin sep (v :: rest) :=
        rfl
      rw [this]
      simp

namespace Chord

/-- Re-tokenizing the normalized display text of clean tokens recovers
exactly those tokens. -/
lemma tokenize_normalized (us : List PyStr) (hne : us ≠ [])
    (hfacts : ∀ u ∈ us, u ≠ [] ∧ pyLower u = u ∧ 43 ∉ u
      ∧ headNot isPySpace u ∧ lastNot isPySpace u) :
    tokenize (pyJoin 43 (us.map pyUpper)) = us := by
  rw [tokenize]
  have hsplit : pySplit 43 (pyJoin 43 (us.map pyUpper)) = us.map pyUpper := by
    apply pySplit_pyJoin
    · simpa using hne
    · intro t htm
      rw [List.mem_map] at htm
      obtain ⟨u, hu, rfl⟩ := htm
      intro hmem
      rw [pyUpper, List.mem_map] at hmem
      obtain ⟨a, hain, ha43⟩ := hmem
      have ha : a = 43 := upperCp_eq_43 a ha43
      subst ha
      exact (hfacts u hu).2.2.1 hain
  rw [hsplit]
  clear hsplit hne
  induction us with
  | nil => rfl
  | cons u us ih =>
    obtain ⟨hune, hlow, -, hh, hl⟩ := hfacts u (List.mem_cons_self u us)
    have huppne : pyUpper u ≠ [] := fun hn => hune (List.map_eq_nil_iff.mp hn)
    have hclean : pyStrip (pyUpper u) = pyUpper u :=
      pyStrip_of_clean _ (headNot_map upperCp isPySpace_upperCp u hh)
        (lastNot_map upperCp isPySpace_upperCp u hl)
    have hfu : (let t := pyStrip (pyUpper u);
        if t = [] then none else some (pyLower t)) = some u := by
      show (if pyStrip (pyUpper u) = [] then none
        else some (pyLower (pyStrip (pyUpper u)))) = some u
      rw [hclean, if_neg huppne, pyLower_pyUpper_of_lowered u hlow]
    rw [List.map_cons, List.filterMap_cons, hfu,
      ih fun x hx => hfacts x (List.mem_cons_of_mem u hx)]

/-- The normalized display text is all-uppercase already, so
`HotkeyChord.display` returns it unchanged. -/
lemma normalizedText_upper_fixed (mods : List PyStr) (k : PyStr) :
    pyUpper (normalizedText mods k) = normalizedText mods k := by
  rw [normalizedText, pyUpper_pyJoin 43 (by decide), List.map_map]
  apply congrArg
  exact List.map_congr_left fun u _ => pyUpper_idem u

/-- Inversion of a successful `parse_hotkey`. -/
lemma parse_ok_inversion (text : PyStr) (c : HotkeyChord)
    (h : parse_hotkey text = .ok c) :
    ∃ mods k, collectTokens (tokenize text) = (mods, some k)
      ∧ keyToVirtualKeys k ≠ ∅
      ∧ c = ⟨normalizedText mods k, buildMask mods, buildGroups mods,
          keyToVirtualKeys k⟩ := by
  by_cases ht : text = []
  · rw [parse_hotkey, if_pos ht] at h
    cases h
  · by_cases hp : tokenize text = []
    · simp [parse_hotkey, ht, hp] at h
    · cases hcc : collectTokens (tokenize text) with
      | mk mods key =>
        cases key with
        | none => simp [parse_hotkey, ht, hp, hcc] at h
        | some k =>
          by_cases hkg : keyToVirtualKeys k = ∅
          · simp [parse_hotkey, ht, hp, hcc, hkg] at h
          · refine ⟨mods, k, rfl, hkg, ?_⟩
            simp [parse_hotkey, ht, hp, hcc, hkg] at h
            exact h.symm

end Chord

/-- C9: parsing is idempotent under re-parsing of the normalized display
form — for every string `s` accepted by `parse_hotkey`,
`parse_hotkey (parse_hotkey s).display` succeeds and returns the same
chord (same display text, modifier mask, modifier groups and primary key
group). -/
theorem parse_display_idempotent (s : PyStr) (c : Chord.HotkeyChord)
    (h : Chord.parse_hotkey s = .ok c) :
    Chord.parse_hotkey c.display = .ok c := by
  obtain ⟨mods, k, hcc, hkg, rfl⟩ := Chord.parse_ok_inversion s c h
  have hfst := Chord.collectTokens_fst (Chord.tokenize s)
  rw [hcc] at hfst
  simp only at hfst
  have hsnd := Chord.collectTokens_snd (Chord.tokenize s)
  rw [hcc] at hsnd
  simp only at hsnd
  have hkfil : k ∈ (Chord.tokenize s).filter
      (fun t => !Chord.isModifierToken t) :=
    List.mem_of_mem_getLast? hsnd.symm
  obtain ⟨hkmem, hknm⟩ := List.mem_filter.mp hkfil
  have hknm' : Chord.isModifierToken k = false := by simpa using hknm
  have hmodsall : ∀ m ∈ mods, Chord.isModifierToken m = true := by
    intro m hm
    rw [hfst] at hm
    exact (List.mem_filter.mp hm).2
  have hfacts : ∀ u ∈ mods ++ [k], u ≠ [] ∧ pyLower u = u ∧ 43 ∉ u
      ∧ headNot isPySpace u ∧ lastNot isPySpace u := by
    intro u hu
    rcases List.mem_append.mp hu with hu | hu
    · have : u ∈ Chord.tokenize s := by
        rw [hfst] at hu
        exact (List.mem_filter.mp hu).1
      exact Chord.tokenize_facts s u this
    · rcases List.mem_singleton.mp hu with rfl
      exact Chord.tokenize_facts s u hkmem
  have hdisp : (Chord.HotkeyChord.mk (Chord.normalizedText mods k)
      (Chord.buildMask mods) (Chord.buildGroups mods)
      (Chord.keyToVirtualKeys k)).display = Chord.normalizedText mods k :=
    Chord.normalizedText_upper_fixed mods k
  rw [hdisp]
  have hkne : k ≠ [] := (hfacts k (List.mem_append_right mods
    (List.mem_singleton_self k))).1
  have htne : ¬ (Chord.normalizedText mods k = []) := by
    apply pyJoin_ne_nil 43 _ (pyUpper k)
    · exact List.mem_map_of_mem pyUpper (List.mem_append_right mods
        (List.mem_singleton_self k))
    · intro hn
      exact hkne (List.map_eq_nil_iff.mp hn)
  have htok : Chord.tokenize (Chord.normalizedText mods k) = mods ++ [k] :=
    Chord.tokenize_normalized (mods ++ [k]) (by simp) hfacts
  have hp' : ¬ (Chord.tokenize (Chord.normalizedText mods k) = []) := by
    rw [htok]
    simp
  have hcc' : Chord.collectTokens
      (Chord.tokenize (Chord.normalizedText mods k)) = (mods, some k) := by
    rw [htok]
    exact Chord.collectTokens_append_key mods k hmodsall hknm'
  simp [Chord.parse_hotkey, htne, hp', hcc', hkg]

/-- The chord parsed from `"ctrl+shift+;"`. -/
def Chord.chordCtrlShiftSemi : Chord.HotkeyChord :=
  ⟨str2cp "CTRL+SHIFT+;", 6, [{0xA2, 0xA3}, {0xA0, 0xA1}], {0xBA}⟩

theorem parse_display_idempotent_witness :
    Chord.parse_hotkey (str2cp "ctrl+shift+;") = .ok Chord.chordCtrlShiftSemi
      ∧ Chord.parse_hotkey Chord.chordCtrlShiftSemi.display
          = .ok Chord.chordCtrlShiftSemi :=
  ⟨by decide,
    parse_display_idempotent (str2cp "ctrl+shift+;") Chord.chordCtrlShiftSemi
      (by decide)⟩

end HoppyWhisper
